import Mathlib

/-
Shallow embedding of the otel-instrumentation-clickhouse repository
(src/src/types.ts and src/src/internal_types.ts, constants from the
unnamed constants module).  JavaScript strings are modelled as Lean
strings (sequences of code points); the regex character classes
backslash-w and backslash-s, ASCII case folding, the string truthiness
convention (empty string is falsy) and Number.parseInt are embedded
explicitly below.  Unicode-aware toUpperCase is modelled ASCII-only,
which agrees with JavaScript on all ASCII input.
-/

namespace ClickHouse

/-- Characters of the JavaScript regex class backslash-w: ASCII letters,
digits and underscore. -/
def isWordChar (c : Char) : Bool :=
  c.isAlphanum || c == '_'

/-- Characters accepted inside an extracted identifier: the regex class
of word characters and dots. -/
def isWordDotChar (c : Char) : Bool :=
  isWordChar c || c == '.'

/-- Identifier delimiter characters of the capture groups: backtick
(code 96) and double quote (code 34). -/
def isDelimChar (c : Char) : Bool :=
  c.toNat == 96 || c.toNat == 34

/-- Characters of the JavaScript regex class backslash-s (also the set
trimmed by String.prototype.trim). -/
def isJsSpace (c : Char) : Bool :=
  let n := c.toNat
  n == 32 || n == 9 || n == 10 || n == 13 || n == 11 || n == 12 ||
  n == 0xA0 || n == 0x1680 ||
  n == 0x2000 || n == 0x2001 || n == 0x2002 || n == 0x2003 || n == 0x2004 ||
  n == 0x2005 || n == 0x2006 || n == 0x2007 || n == 0x2008 || n == 0x2009 ||
  n == 0x200A || n == 0x2028 || n == 0x2029 || n == 0x202F || n == 0x205F ||
  n == 0x3000 || n == 0xFEFF

/-- JavaScript String.prototype.trim on a character list. -/
def jsTrimList (l : List Char) : List Char :=
  ((l.dropWhile isJsSpace).reverse.dropWhile isJsSpace).reverse

/-- JavaScript String.prototype.trim. -/
def jsTrimStr (s : String) : String :=
  String.mk (jsTrimList s.data)

/-- Case-insensitive prefix test against a lowercase pattern, the /i
flag of the source regexes (ASCII folding). -/
def startsWithCI : List Char → List Char → Bool
  | [], _ => true
  | _ :: _, [] => false
  | p :: ps, c :: cs => (c.toLower == p) && startsWithCI ps cs

/-- Word-boundary test of the anchors in the source regexes: every
pattern starts with a word character, so the boundary holds exactly when
the previous character (if any) is not a word character. -/
def boundaryOk : Option Char → Bool
  | none => true
  | some c => !(isWordChar c)

/-- Maximal run of identifier characters, failing when empty: the
regex piece matching one or more word-or-dot characters. -/
def identRun (s : List Char) : Option (List Char) :=
  if s.takeWhile isWordDotChar = [] then none else some (s.takeWhile isWordDotChar)

/-- Capture of an identifier optionally wrapped in backtick or double
quote delimiters, with the source's replace call stripping the
delimiters from the captured text.  An opening delimiter is consumed
only when identifier characters follow (regex backtracking on the
optional delimiter cannot otherwise succeed, since a delimiter is not a
word-or-dot character). -/
def matchIdent (s : List Char) : Option String :=
  match s with
  | [] => none
  | c :: rest =>
    if isDelimChar c then (identRun rest).map (fun r => String.mk r)
    else (identRun (c :: rest)).map (fun r => String.mk r)

/-- Require at least one whitespace character (the regex piece matching
one or more spaces), then continue with the given matcher.  Greedy
matching of the space run is deterministic here because every
continuation starts with a non-space character. -/
def requireSpacesThen (k : List Char → Option String) (s : List Char) : Option String :=
  if (s.span isJsSpace).1 = [] then none else k (s.span isJsSpace).2

/-- Attempt of the FROM pattern at one position. -/
def attemptFrom (prev : Option Char) (s : List Char) : Option String :=
  if boundaryOk prev && startsWithCI ['f', 'r', 'o', 'm'] s then
    requireSpacesThen matchIdent (s.drop 4)
  else none

/-- Attempt of the INSERT INTO pattern at one position. -/
def attemptInsertInto (prev : Option Char) (s : List Char) : Option String :=
  if boundaryOk prev && startsWithCI ['i', 'n', 's', 'e', 'r', 't'] s then
    requireSpacesThen
      (fun r =>
        if startsWithCI ['i', 'n', 't', 'o'] r then
          requireSpacesThen matchIdent (r.drop 4)
        else none)
      (s.drop 6)
  else none

/-- Attempt of the UPDATE pattern at one position. -/
def attemptUpdate (prev : Option Char) (s : List Char) : Option String :=
  if boundaryOk prev && startsWithCI ['u', 'p', 'd', 'a', 't', 'e'] s then
    requireSpacesThen matchIdent (s.drop 6)
  else none

/-- Attempt of the DELETE FROM pattern at one position. -/
def attemptDelete (prev : Option Char) (s : List Char) : Option String :=
  if boundaryOk prev && startsWithCI ['d', 'e', 'l', 'e', 't', 'e'] s then
    requireSpacesThen
      (fun r =>
        if startsWithCI ['f', 'r', 'o', 'm'] r then
          requireSpacesThen matchIdent (r.drop 4)
        else none)
      (s.drop 6)
  else none

/-- Leftmost-match scan of String.prototype.match: try the pattern at
each position from the left, tracking the previous character for the
word-boundary test. -/
def scanAux (attempt : Option Char → List Char → Option String) :
    Option Char → List Char → Option String
  | _, [] => none
  | prev, c :: rest =>
    match attempt prev (c :: rest) with
    | some t => some t
    | none => scanAux attempt (some c) rest

/-- First match of the FROM regex of parseTableFromQuery, delimiters
stripped. -/
def regexFindFrom (q : String) : Option String :=
  scanAux attemptFrom none q.data

/-- First match of the INSERT INTO regex of parseTableFromQuery. -/
def regexFindInsertInto (q : String) : Option String :=
  scanAux attemptInsertInto none q.data

/-- First match of the UPDATE regex of parseTableFromQuery. -/
def regexFindUpdate (q : String) : Option String :=
  scanAux attemptUpdate none q.data

/-- First match of the DELETE FROM regex of parseTableFromQuery. -/
def regexFindDelete (q : String) : Option String :=
  scanAux attemptDelete none q.data

/-- Upper-cased character list of the guard computation
query.trim().toUpperCase() of parseTableFromQuery (ASCII folding). -/
def jsToUpperData (s : String) : List Char :=
  s.data.map Char.toUpper

/-- Embedding of the private method parseTableFromQuery of
src/src/types.ts: guard on the empty query, compute the trimmed
upper-cased query, then try the four patterns in source order, the
UPDATE and DELETE ones only under their startsWith guards. -/
def parseTableFromQuery (query : String) : Option String :=
  if query = "" then none
  else
    let normalized := jsToUpperData (jsTrimStr query)
    match regexFindFrom query with
    | some t => some t
    | none =>
      match regexFindInsertInto query with
      | some t => some t
      | none =>
        match (if List.isPrefixOf ['U', 'P', 'D', 'A', 'T', 'E'] normalized then
            regexFindUpdate query else none) with
        | some t => some t
        | none =>
          match (if List.isPrefixOf ['D', 'E', 'L', 'E', 'T', 'E'] normalized then
              regexFindDelete query else none) with
          | some t => some t
          | none => none

/-- First non-none entry of a list of candidates. -/
def firstSome : List (Option String) → Option String
  | [] => none
  | o :: rest =>
    match o with
    | some t => some t
    | none => firstSome rest

/-- Modelled from the claim's words for comparison with the source
definition: the four candidate patterns listed in priority order, the
first match winning, with the UPDATE and DELETE candidates present only
under the trimmed upper-cased startsWith guards. -/
def specTableResolutionOrder (query : String) : Option String :=
  if query = "" then none
  else
    firstSome
      [ regexFindFrom query,
        regexFindInsertInto query,
        if List.isPrefixOf ['U', 'P', 'D', 'A', 'T', 'E'] (jsToUpperData (jsTrimStr query)) then
          regexFindUpdate query else none,
        if List.isPrefixOf ['D', 'E', 'L', 'E', 'T', 'E'] (jsToUpperData (jsTrimStr query)) then
          regexFindDelete query else none ]

/-- Model of the URL object of the connection parameters
(src/src/internal_types.ts): hostname, and port as the string that
URL.port exposes (empty when no port). -/
structure URLModel where
  hostname : String
  port : String
deriving DecidableEq, Repr

/-- Connection parameters of the ClickHouse client instance
(src/src/internal_types.ts). -/
structure ConnectionParams where
  url : Option URLModel
  database : Option String
deriving DecidableEq, Repr

/-- Internal representation of the ClickHouse client instance
(src/src/internal_types.ts). -/
structure ClickHouseClient where
  connectionParams : Option ConnectionParams
deriving DecidableEq, Repr

/-- Call parameters: the union of QueryParams and InsertParams of
src/src/internal_types.ts; a field is none when the key is absent. -/
structure CallParams where
  query : Option String
  query_id : Option String
  table : Option String
deriving DecidableEq, Repr

/-- Fallback branch of extractTableName: parse the query text when a
truthy query field is present, else no table name. -/
def queryFallbackTable (p : CallParams) : Option String :=
  match p.query with
  | some q => if q = "" then none else parseTableFromQuery q
  | none => none

/-- Embedding of the private method extractTableName of
src/src/types.ts: for insert operations with a truthy table field,
the trimmed table value; otherwise fall back to parsing a truthy query
field; otherwise none. -/
def extractTableName (params : Option CallParams) (operation : String) : Option String :=
  match params with
  | none => none
  | some p =>
    match p.table with
    | some t =>
      if operation = "insert" ∧ t ≠ "" then some (jsTrimStr t) else queryFallbackTable p
    | none => queryFallbackTable p

/-- Whitespace collapse of normalizeQuery: each maximal run of
whitespace characters becomes a single space (the flag records whether
the previous character was part of a run). -/
def collapseWsAux : Bool → List Char → List Char
  | _, [] => []
  | prevWs, c :: rest =>
    if isJsSpace c then
      if prevWs then collapseWsAux true rest
      else ' ' :: collapseWsAux true rest
    else c :: collapseWsAux false rest

/-- Embedding of the private method normalizeQuery of src/src/types.ts:
replace each whitespace run by one space, then trim. -/
def normalizeQuery (query : String) : String :=
  jsTrimStr (String.mk (collapseWsAux false query.data))

/-- Branch of extractQueryText taken when no truthy query field exists:
synthesize an INSERT INTO text from a truthy table field, else the
operation name. -/
def insertFallbackText (p : CallParams) (operation : String) : String :=
  match p.table with
  | some t => if t = "" then operation else "INSERT INTO " ++ t
  | none => operation

/-- Embedding of the private method extractQueryText of
src/src/types.ts. -/
def extractQueryText (params : Option CallParams) (operation : String) : String :=
  match params with
  | none => operation
  | some p =>
    match p.query with
    | some q => if q = "" then insertFallbackText p operation else normalizeQuery q
    | none => insertFallbackText p operation

/-- Attribute values of the span attribute record: strings, integers,
and the NaN that Number.parseInt yields on non-numeric text. -/
inductive AttrValue where
  | str : String → AttrValue
  | num : Int → AttrValue
  | nan : AttrValue
deriving DecidableEq, Repr

/-- Value of a digit run, none when no leading digit exists. -/
def digitsVal (l : List Char) : Option Nat :=
  let ds := l.takeWhile Char.isDigit
  if ds = [] then none
  else some (ds.foldl (fun acc c => acc * 10 + (c.toNat - 48)) 0)

/-- Embedding of Number.parseInt(s, 10): skip leading whitespace, an
optional sign, then the maximal digit prefix; NaN when no digit
follows. -/
def jsParseIntBase10 (s : String) : AttrValue :=
  match s.data.dropWhile isJsSpace with
  | '-' :: rest =>
    match digitsVal rest with
    | some n => AttrValue.num (-(n : Int))
    | none => AttrValue.nan
  | '+' :: rest =>
    match digitsVal rest with
    | some n => AttrValue.num (n : Int)
    | none => AttrValue.nan
  | l =>
    match digitsVal l with
    | some n => AttrValue.num (n : Int)
    | none => AttrValue.nan

/-- Attribute keys of the constants module. -/
def ATTR_DB_SYSTEM_NAME : String := "db.system.name"

def ATTR_DB_QUERY_TEXT : String := "db.query.text"

def ATTR_DB_OPERATION_NAME : String := "db.operation.name"

def ATTR_DB_NAMESPACE : String := "db.namespace"

def ATTR_DB_COLLECTION_NAME : String := "db.collection.name"

def ATTR_SERVER_ADDRESS : String := "server.address"

def ATTR_SERVER_PORT : String := "server.port"

def ATTR_DB_SYSTEM : String := "db.system"

def ATTR_DB_STATEMENT : String := "db.statement"

def ATTR_DB_OPERATION : String := "db.operation"

def ATTR_DB_NAME : String := "db.name"

/-- Unconditional attributes of buildAttributes. -/
def baseAttrs (operation : String) : List (String × AttrValue) :=
  [(ATTR_DB_SYSTEM_NAME, AttrValue.str "clickhouse"),
   (ATTR_DB_OPERATION_NAME, AttrValue.str operation),
   (ATTR_DB_SYSTEM, AttrValue.str "clickhouse"),
   (ATTR_DB_OPERATION, AttrValue.str operation)]

/-- Table attribute of buildAttributes, set when the table name is
truthy. -/
def tableAttrs (tableName : Option String) : List (String × AttrValue) :=
  match tableName with
  | some t => if t = "" then [] else [(ATTR_DB_COLLECTION_NAME, AttrValue.str t)]
  | none => []

/-- Truncated query of buildAttributes. -/
def truncatedQueryText (queryText : String) (maxQueryLength : Nat) : String :=
  if queryText.length > maxQueryLength then queryText.take maxQueryLength ++ "..." else queryText

/-- Query-text attributes of buildAttributes, set when capture is
enabled and the query text is truthy. -/
def queryAttrs (queryText : String) (maxQueryLength : Nat) : List (String × AttrValue) :=
  if 0 < maxQueryLength ∧ queryText ≠ "" then
    [(ATTR_DB_QUERY_TEXT, AttrValue.str (truncatedQueryText queryText maxQueryLength)),
     (ATTR_DB_STATEMENT, AttrValue.str (truncatedQueryText queryText maxQueryLength))]
  else []

/-- Connection attributes of buildAttributes: server address whenever a
URL is present, server port when its port string is truthy, namespace
and legacy name when the database is truthy. -/
def connAttrs (client : ClickHouseClient) : List (String × AttrValue) :=
  match client.connectionParams with
  | none => []
  | some cp =>
    (match cp.url with
     | none => []
     | some u =>
       (ATTR_SERVER_ADDRESS, AttrValue.str u.hostname) ::
         (if u.port = "" then [] else [(ATTR_SERVER_PORT, jsParseIntBase10 u.port)]))
    ++ (match cp.database with
        | none => []
        | some d =>
          if d = "" then [] else
            [(ATTR_DB_NAMESPACE, AttrValue.str d), (ATTR_DB_NAME, AttrValue.str d)])

/-- Embedding of the private method buildAttributes of
src/src/types.ts; insertion order follows the source. -/
def buildAttributes (client : ClickHouseClient) (operation : String)
    (tableName : Option String) (queryText : String) (maxQueryLength : Nat) :
    List (String × AttrValue) :=
  baseAttrs operation ++ tableAttrs tableName ++ queryAttrs queryText maxQueryLength
    ++ connAttrs client

/-- Lookup of an attribute by key; all keys set by buildAttributes are
distinct, so the first binding is the only one. -/
def getAttr (attrs : List (String × AttrValue)) (key : String) : Option AttrValue :=
  match attrs with
  | [] => none
  | (k, v) :: rest => if k = key then some v else getAttr rest key

/-- Instrumentation configuration after the constructor's merge with
DEFAULT_CONFIG, so every field is present. -/
structure Config where
  maxQueryLength : Nat
  requireParentSpan : Bool
  suppressInternalInstrumentation : Bool
deriving DecidableEq, Repr

/-- DEFAULT_CONFIG of the constants module. -/
def DEFAULT_CONFIG : Config := ⟨2048, false, true⟩

/-- Error objects, with an identity tag so that distinct instances with
equal messages stay distinguishable. -/
structure JsError where
  id : Nat
  message : String
deriving DecidableEq, Repr

/-- Values returned by the original method: a non-thenable value, or a
thenable classified by how it eventually settles. -/
inductive JsResult where
  | value : Nat → JsResult
  | thenableResolve : Nat → JsResult
  | thenableReject : JsError → JsResult
deriving DecidableEq, Repr

/-- Behavior of one invocation of the original method: return a result
or throw synchronously. -/
inductive OriginalBehavior where
  | ret : JsResult → OriginalBehavior
  | throw : JsError → OriginalBehavior
deriving DecidableEq, Repr

/-- What the caller of the wrapped method observes: a returned result
(for a thenable, the settlement of the promise the wrapper returns) or
a synchronously thrown error. -/
inductive CallerOutcome where
  | ret : JsResult → CallerOutcome
  | thrown : JsError → CallerOutcome
deriving DecidableEq, Repr

/-- Span status codes of the tracer API used by the source. -/
inductive SpanStatus where
  | ok : SpanStatus
  | error : String → SpanStatus
deriving DecidableEq, Repr

/-- State of one span: name and attributes fixed at startSpan, recorded
exceptions, the last status set, and whether end was called. -/
structure SpanState where
  name : String
  attributes : List (String × AttrValue)
  exceptions : List JsError
  status : Option SpanStatus
  ended : Bool
deriving DecidableEq, Repr

/-- Embedding of the private method endSpan of src/src/types.ts:
record the exception and set ERROR status with the error message, or
set OK status; then end the span. -/
def endSpan (s : SpanState) (error : Option JsError) : SpanState :=
  match error with
  | some e =>
    ⟨s.name, s.attributes, s.exceptions ++ [e], some (SpanStatus.error e.message), true⟩
  | none => ⟨s.name, s.attributes, s.exceptions, some SpanStatus.ok, true⟩

/-- Span name of the wrapper: with a truthy table name it is appended
after a space. -/
def spanNameFor (operation : String) (tableName : Option String) : String :=
  match tableName with
  | some t =>
    if t = "" then "clickhouse." ++ operation
    else "clickhouse." ++ operation ++ " " ++ t
  | none => "clickhouse." ++ operation

/-- Dispatch of the gated pass-through branch: the original's return or
throw reaches the caller unchanged. -/
def passThrough (b : OriginalBehavior) : CallerOutcome :=
  match b with
  | OriginalBehavior.ret r => CallerOutcome.ret r
  | OriginalBehavior.throw e => CallerOutcome.thrown e

/-- Embedding of the private method callOriginalFunction of
src/src/types.ts: run the original, inside the suppressTracing scope
exactly when the configuration asks for it; the flag records which
scope was used. -/
def callOriginalFunction (config : Config) (run : Unit → OriginalBehavior) :
    OriginalBehavior × Bool :=
  if config.suppressInternalInstrumentation then (run (), true) else (run (), false)

/-- Observable result of one invocation of the wrapped method: the span
created (none on the gated pass-through), its final state, the caller's
outcome, and whether the original ran inside the suppression scope. -/
structure WrapperResult where
  span : Option SpanState
  outcome : CallerOutcome
  suppressionUsed : Bool
deriving DecidableEq, Repr

/-- Embedding of one invocation of the function produced by the private
method createWrapper of src/src/types.ts.  hasActiveSpan tells whether
a span is active in the ambient context at call time.  On the gated
branch the original is applied directly.  Otherwise a span is started
with the derived name and attributes, the original runs through
callOriginalFunction, and the span is ended on the non-thenable return
and on both thenable settlements; a synchronous throw propagates out of
the context scope without any call to endSpan. -/
def runWrapper (config : Config) (hasActiveSpan : Bool)
    (original : ClickHouseClient → Option CallParams → OriginalBehavior)
    (client : ClickHouseClient) (params : Option CallParams) (operation : String) :
    WrapperResult :=
  if config.requireParentSpan && !hasActiveSpan then
    ⟨none, passThrough (original client params), false⟩
  else
    let tableName := extractTableName params operation
    let queryText := extractQueryText params operation
    let spanName := spanNameFor operation tableName
    let attributes := buildAttributes client operation tableName queryText config.maxQueryLength
    let span0 : SpanState := ⟨spanName, attributes, [], none, false⟩
    let call := callOriginalFunction config (fun _ => original client params)
    match call.1 with
    | OriginalBehavior.throw e => ⟨some span0, CallerOutcome.thrown e, call.2⟩
    | OriginalBehavior.ret (JsResult.value v) =>
      ⟨some (endSpan span0 none), CallerOutcome.ret (JsResult.value v), call.2⟩
    | OriginalBehavior.ret (JsResult.thenableResolve v) =>
      ⟨some (endSpan span0 none), CallerOutcome.ret (JsResult.thenableResolve v), call.2⟩
    | OriginalBehavior.ret (JsResult.thenableReject e) =>
      ⟨some (endSpan span0 (some e)), CallerOutcome.ret (JsResult.thenableReject e), call.2⟩

/-- State of one method slot of the client prototype: the original
implementation, possibly under wrapper layers (identifiers are abstract
tags). -/
inductive MethodSlot where
  | base : Nat → MethodSlot
  | wrapped : Nat → MethodSlot → MethodSlot
deriving DecidableEq, Repr

/-- isWrapped of the instrumentation framework. -/
def isWrappedSlot : MethodSlot → Bool
  | MethodSlot.base _ => false
  | MethodSlot.wrapped _ _ => true

/-- unwrap of the instrumentation framework: remove the outermost
wrapper layer, restoring what it wrapped. -/
def unwrapSlot : MethodSlot → MethodSlot
  | MethodSlot.base f => MethodSlot.base f
  | MethodSlot.wrapped _ s => s

/-- wrap of the instrumentation framework: layer a wrapper over the
current slot. -/
def wrapSlot (w : Nat) (s : MethodSlot) : MethodSlot :=
  MethodSlot.wrapped w s

/-- Embedding of the private method wrapMethod of src/src/types.ts:
unwrap first when the method is already wrapped, then wrap. -/
def wrapMethod (s : MethodSlot) (w : Nat) : MethodSlot :=
  wrapSlot w (if isWrappedSlot s then unwrapSlot s else s)

/-- Number of wrapper layers on a slot. -/
def layerCount : MethodSlot → Nat
  | MethodSlot.base _ => 0
  | MethodSlot.wrapped _ s => layerCount s + 1

/-! Helper lemmas about attribute lookup. -/

lemma getAttr_append (l1 l2 : List (String × AttrValue)) (k : String) :
    getAttr (l1 ++ l2) k = (getAttr l1 k).or (getAttr l2 k) := by
  induction l1 with
  | nil => simp [getAttr]
  | cons a rest ih =>
    obtain ⟨ka, va⟩ := a
    by_cases h : ka = k <;> simp [getAttr, h, ih]

lemma getAttr_baseAttrs (operation k : String)
    (h1 : k ≠ ATTR_DB_SYSTEM_NAME) (h2 : k ≠ ATTR_DB_OPERATION_NAME)
    (h3 : k ≠ ATTR_DB_SYSTEM) (h4 : k ≠ ATTR_DB_OPERATION) :
    getAttr (baseAttrs operation) k = none := by
  simp [baseAttrs, getAttr, Ne.symm h1, Ne.symm h2, Ne.symm h3, Ne.symm h4]

lemma getAttr_tableAttrs (tn : Option String) (k : String)
    (h : k ≠ ATTR_DB_COLLECTION_NAME) :
    getAttr (tableAttrs tn) k = none := by
  cases tn with
  | none => rfl
  | some t => by_cases ht : t = "" <;> simp [tableAttrs, ht, getAttr, Ne.symm h]

lemma getAttr_queryAttrs_other (qt : String) (mql : Nat) (k : String)
    (h1 : k ≠ ATTR_DB_QUERY_TEXT) (h2 : k ≠ ATTR_DB_STATEMENT) :
    getAttr (queryAttrs qt mql) k = none := by
  unfold queryAttrs
  split <;> simp [getAttr, Ne.symm h1, Ne.symm h2]

lemma getAttr_queryAttrs_qt (qt : String) (mql : Nat) :
    getAttr (queryAttrs qt mql) ATTR_DB_QUERY_TEXT
      = (if 0 < mql ∧ qt ≠ "" then
          some (AttrValue.str (truncatedQueryText qt mql)) else none) := by
  unfold queryAttrs
  split <;> simp [getAttr]

lemma getAttr_queryAttrs_stmt (qt : String) (mql : Nat) :
    getAttr (queryAttrs qt mql) ATTR_DB_STATEMENT
      = (if 0 < mql ∧ qt ≠ "" then
          some (AttrValue.str (truncatedQueryText qt mql)) else none) := by
  unfold queryAttrs
  split <;> simp [getAttr, ATTR_DB_QUERY_TEXT, ATTR_DB_STATEMENT]

lemma getAttr_connAttrs_other (client : ClickHouseClient) (k : String)
    (h1 : k ≠ ATTR_SERVER_ADDRESS) (h2 : k ≠ ATTR_SERVER_PORT)
    (h3 : k ≠ ATTR_DB_NAMESPACE) (h4 : k ≠ ATTR_DB_NAME) :
    getAttr (connAttrs client) k = none := by
  obtain ⟨cp⟩ := client
  cases cp with
  | none => rfl
  | some c =>
    obtain ⟨url, db⟩ := c
    cases url with
    | none =>
      cases db with
      | none => rfl
      | some d =>
        by_cases hd : d = "" <;> simp [connAttrs, hd, getAttr, Ne.symm h3, Ne.symm h4]
    | some u =>
      obtain ⟨host, port⟩ := u
      cases db with
      | none =>
        by_cases hp : port = "" <;>
          simp [connAttrs, hp, getAttr, Ne.symm h1, Ne.symm h2]
      | some d =>
        by_cases hp : port = "" <;> by_cases hd : d = "" <;>
          simp [connAttrs, hp, hd, getAttr, Ne.symm h1, Ne.symm h2, Ne.symm h3, Ne.symm h4]

lemma getAttr_connAttrs_addr (client : ClickHouseClient) :
    getAttr (connAttrs client) ATTR_SERVER_ADDRESS
      = (match client.connectionParams with
         | none => none
         | some cp => cp.url.map (fun u => AttrValue.str u.hostname)) := by
  obtain ⟨cp⟩ := client
  cases cp with
  | none => rfl
  | some c =>
    obtain ⟨url, db⟩ := c
    cases url with
    | none =>
      cases db with
      | none => rfl
      | some d => by_cases hd : d = "" <;> simp [connAttrs, hd, getAttr, ATTR_DB_SYSTEM_NAME, ATTR_DB_QUERY_TEXT, ATTR_DB_OPERATION_NAME, ATTR_DB_NAMESPACE, ATTR_DB_COLLECTION_NAME, ATTR_SERVER_ADDRESS, ATTR_SERVER_PORT, ATTR_DB_SYSTEM, ATTR_DB_STATEMENT, ATTR_DB_OPERATION, ATTR_DB_NAME]
    | some u =>
      cases db with
      | none => by_cases hp : u.port = "" <;> simp [connAttrs, hp, getAttr, ATTR_DB_SYSTEM_NAME, ATTR_DB_QUERY_TEXT, ATTR_DB_OPERATION_NAME, ATTR_DB_NAMESPACE, ATTR_DB_COLLECTION_NAME, ATTR_SERVER_ADDRESS, ATTR_SERVER_PORT, ATTR_DB_SYSTEM, ATTR_DB_STATEMENT, ATTR_DB_OPERATION, ATTR_DB_NAME]
      | some d =>
        by_cases hp : u.port = "" <;> by_cases hd : d = "" <;>
          simp [connAttrs, hp, hd, getAttr, ATTR_DB_SYSTEM_NAME, ATTR_DB_QUERY_TEXT, ATTR_DB_OPERATION_NAME, ATTR_DB_NAMESPACE, ATTR_DB_COLLECTION_NAME, ATTR_SERVER_ADDRESS, ATTR_SERVER_PORT, ATTR_DB_SYSTEM, ATTR_DB_STATEMENT, ATTR_DB_OPERATION, ATTR_DB_NAME]

lemma getAttr_connAttrs_port (client : ClickHouseClient) :
    getAttr (connAttrs client) ATTR_SERVER_PORT
      = (match client.connectionParams with
         | none => none
         | some cp =>
           match cp.url with
           | none => none
           | some u => if u.port = "" then none else some (jsParseIntBase10 u.port)) := by
  obtain ⟨cp⟩ := client
  cases cp with
  | none => rfl
  | some c =>
    obtain ⟨url, db⟩ := c
    cases url with
    | none =>
      cases db with
      | none => rfl
      | some d => by_cases hd : d = "" <;> simp [connAttrs, hd, getAttr, ATTR_DB_SYSTEM_NAME, ATTR_DB_QUERY_TEXT, ATTR_DB_OPERATION_NAME, ATTR_DB_NAMESPACE, ATTR_DB_COLLECTION_NAME, ATTR_SERVER_ADDRESS, ATTR_SERVER_PORT, ATTR_DB_SYSTEM, ATTR_DB_STATEMENT, ATTR_DB_OPERATION, ATTR_DB_NAME]
    | some u =>
      cases db with
      | none => by_cases hp : u.port = "" <;> simp [connAttrs, hp, getAttr, ATTR_DB_SYSTEM_NAME, ATTR_DB_QUERY_TEXT, ATTR_DB_OPERATION_NAME, ATTR_DB_NAMESPACE, ATTR_DB_COLLECTION_NAME, ATTR_SERVER_ADDRESS, ATTR_SERVER_PORT, ATTR_DB_SYSTEM, ATTR_DB_STATEMENT, ATTR_DB_OPERATION, ATTR_DB_NAME]
      | some d =>
        by_cases hp : u.port = "" <;> by_cases hd : d = "" <;>
          simp [connAttrs, hp, hd, getAttr, ATTR_DB_SYSTEM_NAME, ATTR_DB_QUERY_TEXT, ATTR_DB_OPERATION_NAME, ATTR_DB_NAMESPACE, ATTR_DB_COLLECTION_NAME, ATTR_SERVER_ADDRESS, ATTR_SERVER_PORT, ATTR_DB_SYSTEM, ATTR_DB_STATEMENT, ATTR_DB_OPERATION, ATTR_DB_NAME]

lemma getAttr_connAttrs_db (client : ClickHouseClient) (k : String)
    (hk : k = ATTR_DB_NAMESPACE ∨ k = ATTR_DB_NAME) :
    getAttr (connAttrs client) k
      = (match client.connectionParams with
         | none => none
         | some cp =>
           match cp.database with
           | none => none
           | some d => if d = "" then none else some (AttrValue.str d)) := by
  obtain ⟨cp⟩ := client
  rcases hk with hk | hk <;> subst hk <;>
  · cases cp with
    | none => rfl
    | some c =>
      obtain ⟨url, db⟩ := c
      cases url with
      | none =>
        cases db with
        | none => rfl
        | some d => by_cases hd : d = "" <;> simp [connAttrs, hd, getAttr, ATTR_DB_SYSTEM_NAME, ATTR_DB_QUERY_TEXT, ATTR_DB_OPERATION_NAME, ATTR_DB_NAMESPACE, ATTR_DB_COLLECTION_NAME, ATTR_SERVER_ADDRESS, ATTR_SERVER_PORT, ATTR_DB_SYSTEM, ATTR_DB_STATEMENT, ATTR_DB_OPERATION, ATTR_DB_NAME]
      | some u =>
        cases db with
        | none =>
          by_cases hp : u.port = "" <;>
            simp [connAttrs, hp, getAttr, ATTR_DB_SYSTEM_NAME, ATTR_DB_QUERY_TEXT, ATTR_DB_OPERATION_NAME, ATTR_DB_NAMESPACE, ATTR_DB_COLLECTION_NAME, ATTR_SERVER_ADDRESS, ATTR_SERVER_PORT, ATTR_DB_SYSTEM, ATTR_DB_STATEMENT, ATTR_DB_OPERATION, ATTR_DB_NAME]
        | some d =>
          by_cases hp : u.port = "" <;> by_cases hd : d = "" <;>
            simp [connAttrs, hp, hd, getAttr, ATTR_DB_SYSTEM_NAME, ATTR_DB_QUERY_TEXT, ATTR_DB_OPERATION_NAME, ATTR_DB_NAMESPACE, ATTR_DB_COLLECTION_NAME, ATTR_SERVER_ADDRESS, ATTR_SERVER_PORT, ATTR_DB_SYSTEM, ATTR_DB_STATEMENT, ATTR_DB_OPERATION, ATTR_DB_NAME]

/-! Helper lemmas about the table-name scanners. -/

lemma identRun_sound (s r : List Char) (h : identRun s = some r) :
    r ≠ [] ∧ r.all isWordDotChar = true := by
  unfold identRun at h
  split at h
  · exact absurd h (by simp)
  · next hne =>
      injection h with h2
      subst h2
      exact ⟨hne, List.all_takeWhile⟩

lemma matchIdent_sound (s : List Char) (t : String) (h : matchIdent s = some t) :
    t ≠ "" ∧ t.data.all isWordDotChar = true := by
  have core : ∀ x : List Char, (identRun x).map (fun r => String.mk r) = some t →
      t ≠ "" ∧ t.data.all isWordDotChar = true := by
    intro x hx
    rcases Option.map_eq_some'.mp hx with ⟨r, hr, hrt⟩
    obtain ⟨hne, hall⟩ := identRun_sound x r hr
    subst hrt
    refine ⟨fun h0 => hne ?_, by simpa using hall⟩
    have := congrArg String.data h0
    simpa using this
  cases s with
  | nil => simp [matchIdent] at h
  | cons c rest =>
    simp only [matchIdent] at h
    by_cases hd : isDelimChar c = true
    · rw [if_pos hd] at h
      exact core rest h
    · rw [if_neg hd] at h
      exact core (c :: rest) h

lemma requireSpacesThen_sound (k : List Char → Option String) (P : String → Prop)
    (hk : ∀ r t, k r = some t → P t) (s : List Char) (t : String)
    (h : requireSpacesThen k s = some t) : P t := by
  unfold requireSpacesThen at h
  split at h
  · exact absurd h (by simp)
  · exact hk _ _ h

lemma attemptFrom_sound (prev : Option Char) (s : List Char) (t : String)
    (h : attemptFrom prev s = some t) : t ≠ "" ∧ t.data.all isWordDotChar = true := by
  unfold attemptFrom at h
  split at h
  · exact requireSpacesThen_sound _ (fun u : String => u ≠ "" ∧ u.data.all isWordDotChar = true) (fun r u hu => matchIdent_sound r u hu) _ _ h
  · exact absurd h (by simp)

lemma attemptInsertInto_sound (prev : Option Char) (s : List Char) (t : String)
    (h : attemptInsertInto prev s = some t) : t ≠ "" ∧ t.data.all isWordDotChar = true := by
  unfold attemptInsertInto at h
  split at h
  · refine requireSpacesThen_sound _ (fun u : String => u ≠ "" ∧ u.data.all isWordDotChar = true) (fun r u hu => ?_) _ _ h
    split at hu
    · exact requireSpacesThen_sound _ (fun u : String => u ≠ "" ∧ u.data.all isWordDotChar = true) (fun r2 u2 hu2 => matchIdent_sound r2 u2 hu2) _ _ hu
    · exact absurd hu (by simp)
  · exact absurd h (by simp)

lemma attemptUpdate_sound (prev : Option Char) (s : List Char) (t : String)
    (h : attemptUpdate prev s = some t) : t ≠ "" ∧ t.data.all isWordDotChar = true := by
  unfold attemptUpdate at h
  split at h
  · exact requireSpacesThen_sound _ (fun u : String => u ≠ "" ∧ u.data.all isWordDotChar = true) (fun r u hu => matchIdent_sound r u hu) _ _ h
  · exact absurd h (by simp)

lemma attemptDelete_sound (prev : Option Char) (s : List Char) (t : String)
    (h : attemptDelete prev s = some t) : t ≠ "" ∧ t.data.all isWordDotChar = true := by
  unfold attemptDelete at h
  split at h
  · refine requireSpacesThen_sound _ (fun u : String => u ≠ "" ∧ u.data.all isWordDotChar = true) (fun r u hu => ?_) _ _ h
    split at hu
    · exact requireSpacesThen_sound _ (fun u : String => u ≠ "" ∧ u.data.all isWordDotChar = true) (fun r2 u2 hu2 => matchIdent_sound r2 u2 hu2) _ _ hu
    · exact absurd hu (by simp)
  · exact absurd h (by simp)

lemma scanAux_sound (attempt : Option Char → List Char → Option String) (P : String → Prop)
    (hA : ∀ prev l t, attempt prev l = some t → P t) :
    ∀ (prev : Option Char) (l : List Char) (t : String),
      scanAux attempt prev l = some t → P t := by
  intro prev l
  induction l generalizing prev with
  | nil => intro t h; simp [scanAux] at h
  | cons c rest ih =>
    intro t h
    unfold scanAux at h
    cases ha : attempt prev (c :: rest) with
    | some u =>
      rw [ha] at h
      simp at h
      exact h ▸ hA _ _ _ ha
    | none =>
      rw [ha] at h
      simp at h
      exact ih _ _ h

lemma parseTableFromQuery_sound (q : String) (t : String)
    (h : parseTableFromQuery q = some t) : t ≠ "" ∧ t.data.all isWordDotChar = true := by
  unfold parseTableFromQuery at h
  split at h
  · exact absurd h (by simp)
  · cases hf : regexFindFrom q with
    | some tf =>
      rw [hf] at h
      simp at h
      exact h ▸ scanAux_sound _ (fun u : String => u ≠ "" ∧ u.data.all isWordDotChar = true) attemptFrom_sound _ _ _ hf
    | none =>
      rw [hf] at h
      simp only at h
      cases hi : regexFindInsertInto q with
      | some ti =>
        rw [hi] at h
        simp at h
        exact h ▸ scanAux_sound _ (fun u : String => u ≠ "" ∧ u.data.all isWordDotChar = true) attemptInsertInto_sound _ _ _ hi
      | none =>
        rw [hi] at h
        simp only at h
        by_cases hgu : List.isPrefixOf ['U', 'P', 'D', 'A', 'T', 'E'] (jsToUpperData (jsTrimStr q)) = true
        · rw [if_pos hgu] at h
          cases hu : regexFindUpdate q with
          | some tu =>
            rw [hu] at h
            simp at h
            exact h ▸ scanAux_sound _ (fun u : String => u ≠ "" ∧ u.data.all isWordDotChar = true) attemptUpdate_sound _ _ _ hu
          | none =>
            rw [hu] at h
            simp only at h
            by_cases hgd : List.isPrefixOf ['D', 'E', 'L', 'E', 'T', 'E'] (jsToUpperData (jsTrimStr q)) = true
            · rw [if_pos hgd] at h
              cases hd : regexFindDelete q with
              | some td =>
                rw [hd] at h
                simp at h
                exact h ▸ scanAux_sound _ (fun u : String => u ≠ "" ∧ u.data.all isWordDotChar = true) attemptDelete_sound _ _ _ hd
              | none => rw [hd] at h; exact absurd h (by simp)
            · rw [if_neg hgd] at h; exact absurd h (by simp)
        · rw [if_neg hgu] at h
          by_cases hgd : List.isPrefixOf ['D', 'E', 'L', 'E', 'T', 'E'] (jsToUpperData (jsTrimStr q)) = true
          · rw [if_pos hgd] at h
            cases hd : regexFindDelete q with
            | some td =>
              rw [hd] at h
              simp at h
              exact h ▸ scanAux_sound _ (fun u : String => u ≠ "" ∧ u.data.all isWordDotChar = true) attemptDelete_sound _ _ _ hd
            | none => rw [hd] at h; exact absurd h (by simp)
          · rw [if_neg hgd] at h; exact absurd h (by simp)

lemma parseTableFromQuery_eq_spec (q : String) :
    parseTableFromQuery q = specTableResolutionOrder q := by
  by_cases hq : q = ""
  · subst hq
    rfl
  · unfold parseTableFromQuery specTableResolutionOrder
    rw [if_neg hq, if_neg hq]
    simp only [firstSome]

/-! Claim theorems. -/

/-- C1 (code bug): a call whose original implementation throws
synchronously does NOT get its span ended.  At the concrete failing
input below (default configuration, so the requireParentSpan gate is
satisfied, and an original that throws synchronously) a span is
created, the error propagates to the caller unchanged, yet the span is
never ended and never receives a status: the wrapper has no handler
around the synchronous call, contradicting the specified requirement
that no call path leaves the created span open. -/
theorem sync_throw_leaves_span_open :
    ((runWrapper DEFAULT_CONFIG false (fun _ _ => OriginalBehavior.throw ⟨0, "boom"⟩) ⟨none⟩
        (some ⟨some "SELECT 1", none, none⟩) "query").span.map SpanState.ended = some false)
    ∧ ((runWrapper DEFAULT_CONFIG false (fun _ _ => OriginalBehavior.throw ⟨0, "boom"⟩) ⟨none⟩
        (some ⟨some "SELECT 1", none, none⟩) "query").span.map SpanState.status = some none)
    ∧ ((runWrapper DEFAULT_CONFIG false (fun _ _ => OriginalBehavior.throw ⟨0, "boom"⟩) ⟨none⟩
        (some ⟨some "SELECT 1", none, none⟩) "query").outcome
        = CallerOutcome.thrown ⟨0, "boom"⟩) := by
  decide

/-- C2 (counterexample): an insert call whose params carry no table
field resolves its table name by parsing the query text — the result is
non-none and depends on the query — refuting that insert table-name
resolution never falls back to parsing and always equals the trimmed
table field. -/
theorem insert_without_table_parses_query :
    extractTableName (some ⟨some "SELECT a FROM events", none, none⟩) "insert" = some "events"
    ∧ extractTableName (some ⟨some "SELECT a FROM other_tbl", none, none⟩) "insert"
        = some "other_tbl"
    ∧ extractTableName (some ⟨some "SELECT a FROM events", none, none⟩) "insert" ≠ none := by
  decide

/-- C2 (amended): for every insert call whose params carry a non-empty
table field, the resolved table name is the trimmed table value,
independent of any query text, and the span name is derived from it;
when the table field is absent or empty, insert resolution falls back
to query parsing exactly as for the query operation. -/
theorem insert_table_resolution_amended :
    (∀ (qid q : Option String) (t : String), t ≠ "" →
      extractTableName (some ⟨q, qid, some t⟩) "insert" = some (jsTrimStr t))
    ∧ (∀ qid q : Option String,
        extractTableName (some ⟨q, qid, none⟩) "insert"
          = extractTableName (some ⟨q, qid, none⟩) "query")
    ∧ (∀ qid q : Option String,
        extractTableName (some ⟨q, qid, some ""⟩) "insert"
          = extractTableName (some ⟨q, qid, some ""⟩) "query")
    ∧ (∀ (qid q : Option String) (t : String), t ≠ "" → jsTrimStr t ≠ "" →
        spanNameFor "insert" (extractTableName (some ⟨q, qid, some t⟩) "insert")
          = "clickhouse.insert " ++ jsTrimStr t) := by
  refine ⟨fun qid q t ht => ?_, fun qid q => ?_, fun qid q => ?_, fun qid q t ht htr => ?_⟩
  · simp [extractTableName, ht]
  · rfl
  · simp [extractTableName]
  · simp [extractTableName, spanNameFor, ht, htr]

/-- C2 witness: the amended theorem applied at concrete inputs,
including a present-but-empty table field falling back to query
parsing. -/
theorem insert_table_resolution_amended_witness :
    extractTableName (some ⟨some "ignored FROM x", none, some " events "⟩) "insert"
      = some "events"
    ∧ extractTableName (some ⟨some "SELECT a FROM events", none, some ""⟩) "insert"
      = extractTableName (some ⟨some "SELECT a FROM events", none, some ""⟩) "query"
    ∧ spanNameFor "insert" (extractTableName (some ⟨none, none, some "events"⟩) "insert")
      = "clickhouse.insert events" :=
  ⟨(insert_table_resolution_amended.1 none (some "ignored FROM x") " events "
      (by decide)).trans (by decide),
   insert_table_resolution_amended.2.2.1 none (some "SELECT a FROM events"),
   (insert_table_resolution_amended.2.2.2 none none "events" (by decide) (by decide)).trans
      (by decide)⟩

/-- C6: when requireParentSpan is set and no span is active in the
ambient context, the wrapper creates no span and builds no attributes:
it returns exactly the pass-through of the original applied to the same
receiver and params, outside the suppression scope. -/
theorem gating_passthrough (config : Config)
    (original : ClickHouseClient → Option CallParams → OriginalBehavior)
    (client : ClickHouseClient) (params : Option CallParams) (operation : String)
    (hreq : config.requireParentSpan = true) :
    runWrapper config false original client params operation
      = ⟨none, passThrough (original client params), false⟩ := by
  simp [runWrapper, hreq]

/-- C6 witness: the gating theorem applied at a concrete configuration,
original and call. -/
theorem gating_passthrough_witness :
    runWrapper ⟨2048, true, true⟩ false
        (fun _ _ => OriginalBehavior.ret (JsResult.value 7)) ⟨none⟩ none "query"
      = ⟨none, passThrough (OriginalBehavior.ret (JsResult.value 7)), false⟩ :=
  gating_passthrough ⟨2048, true, true⟩
    (fun _ _ => OriginalBehavior.ret (JsResult.value 7)) ⟨none⟩ none "query" rfl

/-- C7: wrapMethod removes an existing wrapper before installing the
new one, so a second install overwrites rather than layers; any number
of repeated installs starting from an unwrapped method leaves exactly
one active wrapper layer, and a single unwrap restores the original
unwrapped slot. -/
theorem install_idempotent_single_wrapper :
    (∀ (s : MethodSlot) (w1 w2 : Nat),
      wrapMethod (wrapMethod s w1) w2 = wrapMethod s w2)
    ∧ (∀ (f w : Nat),
        wrapMethod (MethodSlot.base f) w = MethodSlot.wrapped w (MethodSlot.base f))
    ∧ (∀ (f w : Nat) (ws : List Nat),
        layerCount (ws.foldl wrapMethod (wrapMethod (MethodSlot.base f) w)) = 1)
    ∧ (∀ (f w : Nat) (ws : List Nat),
        unwrapSlot (ws.foldl wrapMethod (wrapMethod (MethodSlot.base f) w))
          = MethodSlot.base f) := by
  have shape : ∀ (ws : List Nat) (w f : Nat), ∃ w2,
      ws.foldl wrapMethod (MethodSlot.wrapped w (MethodSlot.base f))
        = MethodSlot.wrapped w2 (MethodSlot.base f) := by
    intro ws
    induction ws with
    | nil => intro w f; exact ⟨w, rfl⟩
    | cons a as ih =>
      intro w f
      simpa [wrapMethod, wrapSlot, isWrappedSlot, unwrapSlot] using ih a f
  refine ⟨fun s w1 w2 => ?_, fun f w => rfl, fun f w ws => ?_, fun f w ws => ?_⟩
  · cases s <;> rfl
  · obtain ⟨w2, h⟩ := shape ws w f
    rw [show wrapMethod (MethodSlot.base f) w = MethodSlot.wrapped w (MethodSlot.base f) from rfl,
      h]
    rfl
  · obtain ⟨w2, h⟩ := shape ws w f
    rw [show wrapMethod (MethodSlot.base f) w = MethodSlot.wrapped w (MethodSlot.base f) from rfl,
      h]
    rfl

/-- C3: when the gate is satisfied and the original returns a thenable
that rejects with error e, the span records exactly that exception,
carries ERROR status with e's message, is ended, and the caller's
thenable rejects with the identical error instance e. -/
theorem thenable_rejection_records_and_resurfaces (config : Config) (hasActiveSpan : Bool)
    (original : ClickHouseClient → Option CallParams → OriginalBehavior)
    (client : ClickHouseClient) (params : Option CallParams) (operation : String)
    (e : JsError)
    (hgate : (config.requireParentSpan && !hasActiveSpan) = false)
    (horig : original client params = OriginalBehavior.ret (JsResult.thenableReject e)) :
    ((runWrapper config hasActiveSpan original client params operation).span.map
        SpanState.exceptions = some [e])
    ∧ ((runWrapper config hasActiveSpan original client params operation).span.map
        SpanState.status = some (some (SpanStatus.error e.message)))
    ∧ ((runWrapper config hasActiveSpan original client params operation).span.map
        SpanState.ended = some true)
    ∧ ((runWrapper config hasActiveSpan original client params operation).outcome
        = CallerOutcome.ret (JsResult.thenableReject e)) := by
  cases hs : config.suppressInternalInstrumentation <;>
    simp [runWrapper, hgate, callOriginalFunction, horig, endSpan, hs]

/-- C3 witness: the rejection theorem applied at a concrete
configuration, error and call. -/
theorem thenable_rejection_records_and_resurfaces_witness :
    ((runWrapper DEFAULT_CONFIG true
        (fun _ _ => OriginalBehavior.ret (JsResult.thenableReject ⟨3, "nope"⟩)) ⟨none⟩ none
        "exec").span.map SpanState.exceptions = some [⟨3, "nope"⟩])
    ∧ ((runWrapper DEFAULT_CONFIG true
        (fun _ _ => OriginalBehavior.ret (JsResult.thenableReject ⟨3, "nope"⟩)) ⟨none⟩ none
        "exec").span.map SpanState.status
        = some (some (SpanStatus.error (JsError.message ⟨3, "nope"⟩))))
    ∧ ((runWrapper DEFAULT_CONFIG true
        (fun _ _ => OriginalBehavior.ret (JsResult.thenableReject ⟨3, "nope"⟩)) ⟨none⟩ none
        "exec").span.map SpanState.ended = some true)
    ∧ ((runWrapper DEFAULT_CONFIG true
        (fun _ _ => OriginalBehavior.ret (JsResult.thenableReject ⟨3, "nope"⟩)) ⟨none⟩ none
        "exec").outcome = CallerOutcome.ret (JsResult.thenableReject ⟨3, "nope"⟩)) :=
  thenable_rejection_records_and_resurfaces DEFAULT_CONFIG true
    (fun _ _ => OriginalBehavior.ret (JsResult.thenableReject ⟨3, "nope"⟩)) ⟨none⟩ none
    "exec" ⟨3, "nope"⟩ (by decide) rfl

/-- C9: the gated pass-through runs the original outside the
suppression scope even when suppressInternalInstrumentation is on,
while on every instrumented path the suppression scope is used exactly
when the configuration asks for it. -/
theorem suppression_only_on_instrumented_path
    (original : ClickHouseClient → Option CallParams → OriginalBehavior)
    (client : ClickHouseClient) (params : Option CallParams) (operation : String) :
    (∀ maxQueryLength : Nat,
      (runWrapper ⟨maxQueryLength, true, true⟩ false original client params
          operation).suppressionUsed = false)
    ∧ (∀ (config : Config) (hasActiveSpan : Bool),
        (config.requireParentSpan && !hasActiveSpan) = false →
        (runWrapper config hasActiveSpan original client params operation).suppressionUsed
          = config.suppressInternalInstrumentation) := by
  constructor
  · intro mql
    simp [runWrapper]
  · intro config hasActiveSpan hgate
    cases ho : original client params with
    | ret r =>
      cases r <;> cases hs : config.suppressInternalInstrumentation <;>
        simp [runWrapper, hgate, callOriginalFunction, ho, hs]
    | throw e =>
      cases hs : config.suppressInternalInstrumentation <;>
        simp [runWrapper, hgate, callOriginalFunction, ho, hs]

/-- C9 witness: both parts applied at concrete calls. -/
theorem suppression_only_on_instrumented_path_witness :
    ((runWrapper ⟨2048, true, true⟩ false
        (fun _ _ => OriginalBehavior.ret (JsResult.value 1)) ⟨none⟩ none
        "query").suppressionUsed = false)
    ∧ ((runWrapper ⟨2048, false, true⟩ false
        (fun _ _ => OriginalBehavior.ret (JsResult.value 1)) ⟨none⟩ none
        "query").suppressionUsed = Config.suppressInternalInstrumentation ⟨2048, false, true⟩) :=
  ⟨(suppression_only_on_instrumented_path
      (fun _ _ => OriginalBehavior.ret (JsResult.value 1)) ⟨none⟩ none "query").1 2048,
   (suppression_only_on_instrumented_path
      (fun _ _ => OriginalBehavior.ret (JsResult.value 1)) ⟨none⟩ none "query").2
      ⟨2048, false, true⟩ false (by decide)⟩

/-- C10: query text for span attributes is synthesized when no query
string is available — the operation name when params are absent, an
INSERT INTO text from a non-empty table field when no query is given,
and the whitespace-normalized query otherwise; consequently the query
text attribute can be present with no caller-supplied query string. -/
theorem query_text_synthesis :
    (∀ operation : String, extractQueryText none operation = operation)
    ∧ (∀ (qid : Option String) (t operation : String), t ≠ "" →
        extractQueryText (some ⟨none, qid, some t⟩) operation = "INSERT INTO " ++ t)
    ∧ (∀ (qid tbl : Option String) (q operation : String), q ≠ "" →
        extractQueryText (some ⟨some q, qid, tbl⟩) operation = normalizeQuery q)
    ∧ normalizeQuery "  a \n\n b\t" = "a b"
    ∧ getAttr (buildAttributes ⟨none⟩ "insert" (some "events")
        (extractQueryText (some ⟨none, none, some "events"⟩) "insert") 2048) ATTR_DB_QUERY_TEXT
      = some (AttrValue.str "INSERT INTO events") := by
  refine ⟨fun operation => rfl, fun qid t operation ht => ?_, fun qid tbl q operation hq => ?_,
    by decide, by decide⟩
  · simp [extractQueryText, insertFallbackText, ht]
  · simp [extractQueryText, hq]

/-- C10 witness: the synthesis theorem applied at concrete inputs. -/
theorem query_text_synthesis_witness :
    extractQueryText (some ⟨none, none, some "events"⟩) "insert" = "INSERT INTO events"
    ∧ extractQueryText (some ⟨some " SELECT  1 ", none, none⟩) "query" = "SELECT 1" :=
  ⟨(query_text_synthesis.2.1 none "events" "insert" (by decide)).trans (by decide),
   (query_text_synthesis.2.2.1 none none " SELECT  1 " "query" (by decide)).trans (by decide)⟩

/-- C4: table extraction from query text equals the first-match-wins
priority list of the four patterns (FROM, INSERT INTO, then UPDATE and
DELETE FROM under their trimmed upper-cased startsWith guards); every
extracted identifier is a non-empty dotted-word token with the
delimiters stripped; and representative queries exercise
case-insensitivity, delimiter stripping, priority and the no-match
case. -/
theorem table_parse_priority_and_identifier :
    (∀ q : String, parseTableFromQuery q = specTableResolutionOrder q)
    ∧ (∀ q t : String, parseTableFromQuery q = some t →
        t ≠ "" ∧ t.data.all isWordDotChar = true)
    ∧ parseTableFromQuery "SELECT a FROM `orders` WHERE id=1" = some "orders"
    ∧ parseTableFromQuery "INSERT INTO a SELECT * FROM b" = some "b"
    ∧ parseTableFromQuery "insert into db.events values (1)" = some "db.events"
    ∧ parseTableFromQuery "UPDATE \"users\" SET x=1" = some "users"
    ∧ parseTableFromQuery "x UPDATE users SET x=1" = none
    ∧ parseTableFromQuery "OPTIMIZE TABLE x" = none := by
  exact ⟨parseTableFromQuery_eq_spec, parseTableFromQuery_sound, by decide, by decide,
    by decide, by decide, by decide, by decide⟩

/-- C4 witness: the identifier property and the order equivalence
applied at concrete queries. -/
theorem table_parse_priority_and_identifier_witness :
    ("orders" ≠ "" ∧ "orders".data.all isWordDotChar = true)
    ∧ parseTableFromQuery "DELETE FROM t WHERE x"
        = specTableResolutionOrder "DELETE FROM t WHERE x" :=
  ⟨table_parse_priority_and_identifier.2.1 "SELECT a FROM `orders` WHERE id=1" "orders"
      table_parse_priority_and_identifier.2.2.1,
   table_parse_priority_and_identifier.1 "DELETE FROM t WHERE x"⟩

/-- C5: the query-text attributes (current and legacy) are present
exactly when maxQueryLength is positive and the query text is
non-empty, carrying the truncated query; with maxQueryLength 10 the
example query is captured as its first 10 characters plus the marker;
with maxQueryLength 0 both attributes are absent regardless of the
query. -/
theorem query_text_attribute_truncation :
    (∀ (client : ClickHouseClient) (operation : String) (tableName : Option String)
        (queryText : String) (maxQueryLength : Nat),
      getAttr (buildAttributes client operation tableName queryText maxQueryLength)
          ATTR_DB_QUERY_TEXT
        = (if 0 < maxQueryLength ∧ queryText ≠ "" then
            some (AttrValue.str (truncatedQueryText queryText maxQueryLength)) else none)
      ∧ getAttr (buildAttributes client operation tableName queryText maxQueryLength)
          ATTR_DB_STATEMENT
        = (if 0 < maxQueryLength ∧ queryText ≠ "" then
            some (AttrValue.str (truncatedQueryText queryText maxQueryLength)) else none))
    ∧ getAttr (buildAttributes ⟨none⟩ "query" none "SELECT * FROM big_table WHERE x=1" 10)
        ATTR_DB_QUERY_TEXT = some (AttrValue.str "SELECT * F...")
    ∧ (∀ (client : ClickHouseClient) (operation : String) (tableName : Option String)
        (queryText : String),
        getAttr (buildAttributes client operation tableName queryText 0) ATTR_DB_QUERY_TEXT
          = none
        ∧ getAttr (buildAttributes client operation tableName queryText 0) ATTR_DB_STATEMENT
          = none) := by
  have main : ∀ (client : ClickHouseClient) (operation : String) (tableName : Option String)
      (queryText : String) (maxQueryLength : Nat),
      getAttr (buildAttributes client operation tableName queryText maxQueryLength)
          ATTR_DB_QUERY_TEXT
        = (if 0 < maxQueryLength ∧ queryText ≠ "" then
            some (AttrValue.str (truncatedQueryText queryText maxQueryLength)) else none)
      ∧ getAttr (buildAttributes client operation tableName queryText maxQueryLength)
          ATTR_DB_STATEMENT
        = (if 0 < maxQueryLength ∧ queryText ≠ "" then
            some (AttrValue.str (truncatedQueryText queryText maxQueryLength)) else none) := by
    intro client operation tn qt mql
    constructor
    · rw [buildAttributes, getAttr_append, getAttr_append, getAttr_append,
        getAttr_baseAttrs operation _ (by decide) (by decide) (by decide) (by decide),
        getAttr_tableAttrs tn _ (by decide), getAttr_queryAttrs_qt,
        getAttr_connAttrs_other client _ (by decide) (by decide) (by decide) (by decide)]
      simp [Option.none_or, Option.or_none]
    · rw [buildAttributes, getAttr_append, getAttr_append, getAttr_append,
        getAttr_baseAttrs operation _ (by decide) (by decide) (by decide) (by decide),
        getAttr_tableAttrs tn _ (by decide), getAttr_queryAttrs_stmt,
        getAttr_connAttrs_other client _ (by decide) (by decide) (by decide) (by decide)]
      simp [Option.none_or, Option.or_none]
  refine ⟨main, by decide, fun client operation tn qt => ?_⟩
  have h := main client operation tn qt 0
  simpa using h

/-- C8: server address is present exactly when the connection exposes a
URL (carrying its hostname), server port exactly when the URL port
string is non-empty (carrying its parsed integer value), and namespace
with legacy name exactly when a non-empty database is configured; the
concrete connection of the spec example yields the expected three
attributes. -/
theorem connection_attributes :
    (∀ (client : ClickHouseClient) (operation : String) (tableName : Option String)
        (queryText : String) (maxQueryLength : Nat),
      getAttr (buildAttributes client operation tableName queryText maxQueryLength)
          ATTR_SERVER_ADDRESS
        = (match client.connectionParams with
           | none => none
           | some cp => cp.url.map (fun u => AttrValue.str u.hostname))
      ∧ getAttr (buildAttributes client operation tableName queryText maxQueryLength)
          ATTR_SERVER_PORT
        = (match client.connectionParams with
           | none => none
           | some cp =>
             match cp.url with
             | none => none
             | some u => if u.port = "" then none else some (jsParseIntBase10 u.port))
      ∧ getAttr (buildAttributes client operation tableName queryText maxQueryLength)
          ATTR_DB_NAMESPACE
        = (match client.connectionParams with
           | none => none
           | some cp =>
             match cp.database with
             | none => none
             | some d => if d = "" then none else some (AttrValue.str d))
      ∧ getAttr (buildAttributes client operation tableName queryText maxQueryLength)
          ATTR_DB_NAME
        = (match client.connectionParams with
           | none => none
           | some cp =>
             match cp.database with
             | none => none
             | some d => if d = "" then none else some (AttrValue.str d)))
    ∧ (getAttr (buildAttributes ⟨some ⟨some ⟨"ch.local", "8443"⟩, some "default"⟩⟩ "query"
          none "q" 2048) ATTR_SERVER_ADDRESS = some (AttrValue.str "ch.local")
      ∧ getAttr (buildAttributes ⟨some ⟨some ⟨"ch.local", "8443"⟩, some "default"⟩⟩ "query"
          none "q" 2048) ATTR_SERVER_PORT = some (AttrValue.num 8443)
      ∧ getAttr (buildAttributes ⟨some ⟨some ⟨"ch.local", "8443"⟩, some "default"⟩⟩ "query"
          none "q" 2048) ATTR_DB_NAMESPACE = some (AttrValue.str "default")) := by
  refine ⟨fun client operation tn qt mql => ⟨?_, ?_, ?_, ?_⟩, by decide, by decide, by decide⟩
  · rw [buildAttributes, getAttr_append, getAttr_append, getAttr_append,
      getAttr_baseAttrs operation _ (by decide) (by decide) (by decide) (by decide),
      getAttr_tableAttrs tn _ (by decide),
      getAttr_queryAttrs_other qt mql _ (by decide) (by decide), getAttr_connAttrs_addr]
    simp [Option.none_or]
  · rw [buildAttributes, getAttr_append, getAttr_append, getAttr_append,
      getAttr_baseAttrs operation _ (by decide) (by decide) (by decide) (by decide),
      getAttr_tableAttrs tn _ (by decide),
      getAttr_queryAttrs_other qt mql _ (by decide) (by decide), getAttr_connAttrs_port]
    simp [Option.none_or]
  · rw [buildAttributes, getAttr_append, getAttr_append, getAttr_append,
      getAttr_baseAttrs operation _ (by decide) (by decide) (by decide) (by decide),
      getAttr_tableAttrs tn _ (by decide),
      getAttr_queryAttrs_other qt mql _ (by decide) (by decide),
      getAttr_connAttrs_db client _ (Or.inl rfl)]
    simp [Option.none_or]
  · rw [buildAttributes, getAttr_append, getAttr_append, getAttr_append,
      getAttr_baseAttrs operation _ (by decide) (by decide) (by decide) (by decide),
      getAttr_tableAttrs tn _ (by decide),
      getAttr_queryAttrs_other qt mql _ (by decide) (by decide),
      getAttr_connAttrs_db client _ (Or.inr rfl)]
    simp [Option.none_or]

end ClickHouse
